import Mathlib

set_option autoImplicit false

/-
Verification of the safe-call orchestrator of cloud-debug-java
(src/agent/safe_method_caller.h): a shallow embedding of the
SafeMethodCaller class and of the NanoJavaInterpreter supervision
contract, together with proofs of the testable properties of its
specification. Only the class declaration is available in the headers;
the bodies of the declared member functions are therefore modelled from
the specification, as indicated on each definition.
-/

namespace SafeCaller

/-- Error kinds surfaced by the safe method caller, following the error
taxonomy of the specification (ClassResolutionFailure, SignatureMismatch,
MethodBlocked, QuotaExceeded, IllegalMutation, NativeInvocationFailure). -/
inductive ErrorKind
  | ClassResolutionFailure
  | SignatureMismatch
  | MethodBlocked
  | QuotaExceeded
  | IllegalMutation
  | NativeInvocationFailure
deriving DecidableEq

/-- Model of FormatMessageModel: an error kind together with its message
parameters (such as method and class names). A supervisor hook returns
an optional FormatMessageModel; some message means veto. -/
structure FormatMessageModel where
  kind : ErrorKind
  parameters : List String
deriving DecidableEq

/-- Model of Config.MethodCallQuota (safe_method_caller.h line 50): the two
ceilings fixed at construction, number of classes that may be loaded and
number of interpreter instructions that may be executed. -/
structure MethodCallQuota where
  max_classes_load : Nat
  max_interpreter_instructions : Nat
deriving DecidableEq

/-- Mutable state of one SafeMethodCaller instance, from the data members
declared at safe_method_caller.h lines 200 to 216: the instruction counter,
the class-load counter, the set of temporary objects (object identities
modelled as natural numbers) and the chain of active interpreter frames,
innermost first, each frame holding the name of its interpreted method. -/
structure SafeMethodCallerState where
  total_instructions_counter : Nat
  total_method_load_counter : Nat
  temporary_objects : List Nat
  current_interpreter : List String
deriving DecidableEq

/-- State of a freshly constructed SafeMethodCaller: both counters zero, no
temporary objects, no interpreter running. -/
def initialState : SafeMethodCallerState :=
  { total_instructions_counter := 0
    total_method_load_counter := 0
    temporary_objects := []
    current_interpreter := [] }

/-- Modelled from the spec: body of SafeMethodCaller.IsTemporaryObject
(declared at safe_method_caller.h line 146, body not in the headers).
Membership of the object identity in the temporary-objects set is the sole
criterion. -/
def IsTemporaryObject (s : SafeMethodCallerState) (obj : Nat) : Bool :=
  s.temporary_objects.contains obj

/-- Modelled from the spec: body of SafeMethodCaller.NewObjectAllocated
(declared at safe_method_caller.h line 99, body not in the headers).
Unconditionally records the identity of the new object in the
Temporary Object Tracker; never vetoes. -/
def NewObjectAllocated (s : SafeMethodCallerState) (obj : Nat) :
    SafeMethodCallerState :=
  { s with temporary_objects := obj :: s.temporary_objects }

/-- Modelled from the spec: body of SafeMethodCaller.IsNextInstructionAllowed
(declared at safe_method_caller.h line 97, body not in the headers).
Increments the instruction counter and vetoes with QuotaExceeded once the
counter would exceed the maximum number of interpreter instructions. -/
def IsNextInstructionAllowed (q : MethodCallQuota) (s : SafeMethodCallerState) :
    Option FormatMessageModel × SafeMethodCallerState :=
  let s' := { s with
    total_instructions_counter := s.total_instructions_counter + 1 }
  if q.max_interpreter_instructions < s'.total_instructions_counter then
    (some ⟨.QuotaExceeded, []⟩, s')
  else
    (none, s')

/-- Modelled from the spec: body of SafeMethodCaller.IsFieldModifyAllowed
(declared at safe_method_caller.h lines 106 to 108, body not in the headers).
A field write is allowed only if the identity of the target object is in the
Temporary Object Tracker; otherwise the hook vetoes with IllegalMutation.
Field references are modelled by numeric identifiers. -/
def IsFieldModifyAllowed (s : SafeMethodCallerState) (target : Nat)
    (fld : Nat) : Option FormatMessageModel :=
  if IsTemporaryObject s target then none
  else some ⟨.IllegalMutation, []⟩

/-- Modelled from the spec: body of SafeMethodCaller.IsArrayModifyAllowed
(declared at safe_method_caller.h lines 103 to 104, body not in the headers).
An array element write is allowed only if the identity of the target array is
in the Temporary Object Tracker; otherwise the hook vetoes with
IllegalMutation. -/
def IsArrayModifyAllowed (s : SafeMethodCallerState) (array : Nat) :
    Option FormatMessageModel :=
  if IsTemporaryObject s array then none
  else some ⟨.IllegalMutation, []⟩

/-- Modelled from the spec: body of SafeMethodCaller.CacheLoadClassFile
(declared at safe_method_caller.h lines 160 to 161, body not in the headers).
The shared class-files cache is modelled by the list of class signatures it
holds. A cache hit returns without touching the load counter; a miss within
quota fetches the class body, increments the counter and extends the cache;
a miss whose load would exceed the quota returns a QuotaExceeded error. -/
def CacheLoadClassFile (q : MethodCallQuota) (cls : String)
    (s : SafeMethodCallerState) (cache : List String) :
    Except FormatMessageModel (SafeMethodCallerState × List String) :=
  if cache.contains cls then
    .ok (s, cache)
  else if q.max_classes_load ≤ s.total_method_load_counter then
    .error ⟨.QuotaExceeded, [cls]⟩
  else
    .ok ({ s with
            total_method_load_counter := s.total_method_load_counter + 1 },
         cls :: cache)

/-- Checks if the interpreter is effectively disabled, from the inline body at
safe_method_caller.h lines 130 to 133: both quota ceilings are zero. -/
def IsNanoJavaInterpreterDisabled (q : MethodCallQuota) : Bool :=
  q.max_classes_load == 0 && q.max_interpreter_instructions == 0

/-- Heap fragment observed by the interpreter: object identity and field (or
array index) to stored value. -/
def Heap : Type := Nat → Nat → Int

/-- Writes one field (or array slot) of one object in the heap. -/
def writeField (h : Heap) (obj fld : Nat) (v : Int) : Heap :=
  fun o f => if o = obj && f = fld then v else h o f

/-- Modelled from the spec: the interpreter consults the field-modify hook
before every instance or static field write and, when the hook vetoes, halts
immediately without performing the write. -/
def InterpretFieldWrite (s : SafeMethodCallerState) (h : Heap)
    (target fld : Nat) (v : Int) : Option FormatMessageModel × Heap :=
  match IsFieldModifyAllowed s target fld with
  | some veto => (some veto, h)
  | none => (none, writeField h target fld v)

/-- Modelled from the spec: the interpreter consults the array-modify hook
before every array element write and, when the hook vetoes, halts immediately
without performing the write. -/
def InterpretArrayStore (s : SafeMethodCallerState) (h : Heap)
    (array idx : Nat) (v : Int) : Option FormatMessageModel × Heap :=
  match IsArrayModifyAllowed s array with
  | some veto => (some veto, h)
  | none => (none, writeField h array idx v)

/-- One observable operation on the state of a SafeMethodCaller instance over
its lifetime: a supervisor hook firing, a class-file load, or the interpreter
frame chain growing or shrinking around a nested interpreted call. -/
inductive SupervisorOp
  | nextInstruction
  | newObject (obj : Nat)
  | fieldModify (target : Nat) (fld : Nat)
  | arrayModify (array : Nat)
  | cacheLoad (cls : String)
  | pushFrame (name : String)
  | popFrame
deriving DecidableEq

/-- The caller state together with the shared class-files cache it loads
through. -/
structure World where
  caller : SafeMethodCallerState
  class_files_cache : List String
deriving DecidableEq

/-- Attaches a new interpreter frame for a nested interpreted call: the new
interpreter keeps a reference to its parent, modelled by consing the name of
the interpreted method onto the frame chain. -/
def attachFrame (s : SafeMethodCallerState) (name : String) :
    SafeMethodCallerState :=
  { s with current_interpreter := name :: s.current_interpreter }

/-- Detaches the innermost interpreter frame when a nested interpreted call
returns, restoring the parent interpreter. -/
def detachFrame (s : SafeMethodCallerState) : SafeMethodCallerState :=
  { s with current_interpreter := s.current_interpreter.tail }

/-- Effect of one supervisor operation on the world, together with the veto
the hook returned, if any. -/
def applyOp (q : MethodCallQuota) (w : World) :
    SupervisorOp → World × Option FormatMessageModel
  | .nextInstruction =>
    let r := IsNextInstructionAllowed q w.caller
    (⟨r.2, w.class_files_cache⟩, r.1)
  | .newObject obj =>
    (⟨NewObjectAllocated w.caller obj, w.class_files_cache⟩, none)
  | .fieldModify target fld =>
    (w, IsFieldModifyAllowed w.caller target fld)
  | .arrayModify array =>
    (w, IsArrayModifyAllowed w.caller array)
  | .cacheLoad cls =>
    match CacheLoadClassFile q cls w.caller w.class_files_cache with
    | .ok (s', cache') => (⟨s', cache'⟩, none)
    | .error m => (w, some m)
  | .pushFrame name =>
    (⟨attachFrame w.caller name, w.class_files_cache⟩, none)
  | .popFrame =>
    (⟨detachFrame w.caller, w.class_files_cache⟩, none)

/-- Runs a sequence of supervisor operations, threading the world through. -/
def applyOps (q : MethodCallQuota) (w : World) :
    List SupervisorOp → World
  | [] => w
  | op :: ops => applyOps q (applyOp q w op).1 ops

/-- Every single operation leaves the instruction counter no smaller. -/
theorem applyOp_instructions_mono (q : MethodCallQuota) (w : World)
    (op : SupervisorOp) :
    w.caller.total_instructions_counter
      ≤ (applyOp q w op).1.caller.total_instructions_counter := by
  cases op <;>
    simp only [applyOp, IsNextInstructionAllowed, NewObjectAllocated,
      attachFrame, detachFrame]
  case nextInstruction => split <;> simp
  case cacheLoad cls =>
    by_cases h1 : cls ∈ w.class_files_cache
    · simp [CacheLoadClassFile, h1]
    · by_cases h2 : q.max_classes_load ≤ w.caller.total_method_load_counter
      · simp [CacheLoadClassFile, h1, h2]
      · simp [CacheLoadClassFile, h1, h2]
  all_goals simp

/-- Every single operation leaves the class-load counter no smaller. -/
theorem applyOp_load_mono (q : MethodCallQuota) (w : World)
    (op : SupervisorOp) :
    w.caller.total_method_load_counter
      ≤ (applyOp q w op).1.caller.total_method_load_counter := by
  cases op <;>
    simp only [applyOp, IsNextInstructionAllowed, NewObjectAllocated,
      attachFrame, detachFrame]
  case nextInstruction => split <;> simp
  case cacheLoad cls =>
    by_cases h1 : cls ∈ w.class_files_cache
    · simp [CacheLoadClassFile, h1]
    · by_cases h2 : q.max_classes_load ≤ w.caller.total_method_load_counter
      · simp [CacheLoadClassFile, h1, h2]
      · simp [CacheLoadClassFile, h1, h2]
  all_goals simp

/-- Every single operation preserves membership in the temporary-objects
set. -/
theorem applyOp_temporary_mono (q : MethodCallQuota) (w : World)
    (op : SupervisorOp) (x : Nat)
    (hx : x ∈ w.caller.temporary_objects) :
    x ∈ (applyOp q w op).1.caller.temporary_objects := by
  cases op <;>
    simp only [applyOp, IsNextInstructionAllowed, NewObjectAllocated,
      attachFrame, detachFrame]
  case nextInstruction => split <;> simpa
  case newObject obj => simpa using Or.inr hx
  case cacheLoad cls =>
    by_cases h1 : cls ∈ w.class_files_cache
    · simpa [CacheLoadClassFile, h1]
    · by_cases h2 : q.max_classes_load ≤ w.caller.total_method_load_counter
      · simpa [CacheLoadClassFile, h1, h2]
      · simpa [CacheLoadClassFile, h1, h2]
  all_goals simpa

/-- Over any sequence of operations the instruction counter never
decreases. -/
theorem applyOps_instructions_mono (q : MethodCallQuota) (w : World)
    (ops : List SupervisorOp) :
    w.caller.total_instructions_counter
      ≤ (applyOps q w ops).caller.total_instructions_counter := by
  induction ops generalizing w with
  | nil => exact Nat.le_refl _
  | cons op ops ih =>
    exact Nat.le_trans (applyOp_instructions_mono q w op)
      (ih (applyOp q w op).1)

/-- Over any sequence of operations the class-load counter never
decreases. -/
theorem applyOps_load_mono (q : MethodCallQuota) (w : World)
    (ops : List SupervisorOp) :
    w.caller.total_method_load_counter
      ≤ (applyOps q w ops).caller.total_method_load_counter := by
  induction ops generalizing w with
  | nil => exact Nat.le_refl _
  | cons op ops ih =>
    exact Nat.le_trans (applyOp_load_mono q w op) (ih (applyOp q w op).1)

/-- Over any sequence of operations membership in the temporary-objects set
is preserved. -/
theorem applyOps_temporary_mono (q : MethodCallQuota) (w : World)
    (ops : List SupervisorOp) (x : Nat)
    (hx : x ∈ w.caller.temporary_objects) :
    x ∈ (applyOps q w ops).caller.temporary_objects := by
  induction ops generalizing w with
  | nil => exact hx
  | cons op ops ih =>
    exact ih (applyOp q w op).1 (applyOp_temporary_mono q w op x hx)

/-- Repeated invocation of the next-instruction hook, keeping only the state:
the state after the interpreter has asked permission n times. -/
def iterInstr (q : MethodCallQuota) (s : SafeMethodCallerState) :
    Nat → SafeMethodCallerState
  | 0 => s
  | n + 1 => (IsNextInstructionAllowed q (iterInstr q s n)).2

/-- After n permissions requested from a fresh caller, the instruction
counter reads exactly n. -/
theorem iterInstr_counter (q : MethodCallQuota) (n : Nat) :
    (iterInstr q initialState n).total_instructions_counter = n := by
  induction n with
  | zero => rfl
  | succ n ih =>
    simp only [iterInstr, IsNextInstructionAllowed]
    split <;> simp [ih]

/-- C1: for every object whose identity is not in the Temporary Object
Tracker at the moment a field write or array element write is checked, the
supervisor hook vetoes with IllegalMutation and the heap, hence the field and
array contents of the object, is returned unchanged. -/
theorem untracked_mutation_vetoed (s : SafeMethodCallerState) (h : Heap)
    (target fld idx : Nat) (v : Int)
    (hmem : IsTemporaryObject s target = false) :
    IsFieldModifyAllowed s target fld = some ⟨.IllegalMutation, []⟩ ∧
    IsArrayModifyAllowed s target = some ⟨.IllegalMutation, []⟩ ∧
    InterpretFieldWrite s h target fld v = (some ⟨.IllegalMutation, []⟩, h) ∧
    InterpretArrayStore s h target idx v = (some ⟨.IllegalMutation, []⟩, h) := by
  have hf : IsFieldModifyAllowed s target fld = some ⟨.IllegalMutation, []⟩ := by
    simp [IsFieldModifyAllowed, hmem]
  have ha : IsArrayModifyAllowed s target = some ⟨.IllegalMutation, []⟩ := by
    simp [IsArrayModifyAllowed, hmem]
  refine ⟨hf, ha, ?_, ?_⟩
  · simp [InterpretFieldWrite, hf]
  · simp [InterpretArrayStore, ha]

/-- C1 witness: in the state of a freshly constructed caller, object 5 is not
temporary, and a field write as well as an array store to it are vetoed with
IllegalMutation, leaving the all-zero heap unchanged. -/
theorem untracked_mutation_vetoed_witness :
    IsTemporaryObject initialState 5 = false ∧
    InterpretFieldWrite initialState (fun _ _ => 0) 5 0 7
      = (some ⟨.IllegalMutation, []⟩, fun _ _ => 0) ∧
    InterpretArrayStore initialState (fun _ _ => 0) 5 2 7
      = (some ⟨.IllegalMutation, []⟩, fun _ _ => 0) :=
  ⟨by decide,
   (untracked_mutation_vetoed initialState (fun _ _ => 0) 5 0 2 7
      (by decide)).2.2.1,
   (untracked_mutation_vetoed initialState (fun _ _ => 0) 5 0 2 7
      (by decide)).2.2.2⟩

/-- C2: the instruction counter is non-decreasing over the lifetime of a
SafeMethodCaller instance (any sequence of supervisor operations), and the
next-instruction hook vetoes with QuotaExceeded exactly at the instruction
that would make the counter exceed the maximum number of interpreter
instructions: the veto at the call numbered n + 1 from a fresh caller occurs
if and only if n + 1 exceeds the quota, so one fewer executed instruction
never triggers it. -/
theorem instruction_counter_monotone_quota_exact (q : MethodCallQuota) :
    (∀ (w : World) (ops : List SupervisorOp),
      w.caller.total_instructions_counter
        ≤ (applyOps q w ops).caller.total_instructions_counter) ∧
    (∀ n : Nat,
      (IsNextInstructionAllowed q (iterInstr q initialState n)).1
        = if q.max_interpreter_instructions < n + 1 then
            some ⟨.QuotaExceeded, []⟩
          else none) := by
  refine ⟨applyOps_instructions_mono q, fun n => ?_⟩
  simp only [IsNextInstructionAllowed, iterInstr_counter]
  split <;> rfl

/-- C3: an object recorded through NewObjectAllocated is still in the
Temporary Object Tracker after any further sequence of supervisor operations
(the set only grows, there is no removal), so every subsequent field write or
array element write to that object within the same evaluation is allowed by
the hooks. -/
theorem temporary_object_persists (q : MethodCallQuota) (w : World)
    (obj : Nat) (fld : Nat) (ops : List SupervisorOp) :
    obj ∈ (applyOps q
        ⟨NewObjectAllocated w.caller obj, w.class_files_cache⟩
        ops).caller.temporary_objects ∧
    IsFieldModifyAllowed (applyOps q
        ⟨NewObjectAllocated w.caller obj, w.class_files_cache⟩
        ops).caller obj fld = none ∧
    IsArrayModifyAllowed (applyOps q
        ⟨NewObjectAllocated w.caller obj, w.class_files_cache⟩
        ops).caller obj = none := by
  have hmem : obj ∈ (applyOps q
      ⟨NewObjectAllocated w.caller obj, w.class_files_cache⟩
      ops).caller.temporary_objects := by
    apply applyOps_temporary_mono
    simp [NewObjectAllocated]
  have htmp : IsTemporaryObject (applyOps q
      ⟨NewObjectAllocated w.caller obj, w.class_files_cache⟩
      ops).caller obj = true := by
    simpa [IsTemporaryObject] using hmem
  exact ⟨hmem, by simp [IsFieldModifyAllowed, htmp],
    by simp [IsArrayModifyAllowed, htmp]⟩

/-- C7: the class-load counter is incremented exactly when the class-files
cache actually fetches a previously uncached class body: a cache hit changes
nothing, a miss within quota increments the counter by one and caches the
class, a miss whose load would exceed the ceiling yields a normal
QuotaExceeded error value; and both counters, the class-load counter and the
instruction counter, are cumulative across all nested and sequential calls
made through the same instance, never decreasing and never reset over any
sequence of operations of its lifetime. -/
theorem class_load_counter_cache_quota (q : MethodCallQuota) :
    (∀ (cls : String) (s : SafeMethodCallerState) (cache : List String),
      cache.contains cls = true →
      CacheLoadClassFile q cls s cache = .ok (s, cache)) ∧
    (∀ (cls : String) (s : SafeMethodCallerState) (cache : List String),
      cache.contains cls = false →
      s.total_method_load_counter < q.max_classes_load →
      CacheLoadClassFile q cls s cache
        = .ok ({ s with total_method_load_counter :=
                  s.total_method_load_counter + 1 }, cls :: cache)) ∧
    (∀ (cls : String) (s : SafeMethodCallerState) (cache : List String),
      cache.contains cls = false →
      q.max_classes_load ≤ s.total_method_load_counter →
      CacheLoadClassFile q cls s cache = .error ⟨.QuotaExceeded, [cls]⟩) ∧
    (∀ (w : World) (ops : List SupervisorOp),
      w.caller.total_method_load_counter
        ≤ (applyOps q w ops).caller.total_method_load_counter) ∧
    (∀ (w : World) (ops : List SupervisorOp),
      w.caller.total_instructions_counter
        ≤ (applyOps q w ops).caller.total_instructions_counter) := by
  refine ⟨fun cls s cache hhit => ?_, fun cls s cache hmiss hlt => ?_,
    fun cls s cache hmiss hge => ?_, applyOps_load_mono q,
    applyOps_instructions_mono q⟩
  · have hm : cls ∈ cache := by simpa using hhit
    simp [CacheLoadClassFile, hm]
  · have hm : ¬ cls ∈ cache := by simpa using hmiss
    simp [CacheLoadClassFile, hm, Nat.not_le.mpr hlt]
  · have hm : ¬ cls ∈ cache := by simpa using hmiss
    simp [CacheLoadClassFile, hm, hge]

/-- C7 witness: with a ceiling of two class loads, loading a cached class
leaves the fresh caller untouched, loading an uncached class increments the
load counter to one, and a caller that already loaded two classes gets a
QuotaExceeded error for a further uncached class. -/
theorem class_load_counter_cache_quota_witness :
    CacheLoadClassFile ⟨2, 10⟩ ("LA;") initialState ["LA;"]
      = .ok (initialState, ["LA;"]) ∧
    CacheLoadClassFile ⟨2, 10⟩ ("LB;") initialState []
      = .ok ({ initialState with total_method_load_counter := 1 }, ["LB;"]) ∧
    CacheLoadClassFile ⟨2, 10⟩ ("LB;")
        { initialState with total_method_load_counter := 2 } []
      = .error ⟨.QuotaExceeded, ["LB;"]⟩ :=
  ⟨(class_load_counter_cache_quota ⟨2, 10⟩).1 ("LA;") initialState ["LA;"]
      (by decide),
   (class_load_counter_cache_quota ⟨2, 10⟩).2.1 ("LB;") initialState []
      (by decide) (by decide),
   (class_load_counter_cache_quota ⟨2, 10⟩).2.2.1 ("LB;")
      { initialState with total_method_load_counter := 2 } []
      (by decide) (by decide)⟩

/-- Java value types as used in method signatures (JSignature): primitive
types and reference types carrying the class signature. -/
inductive JType
  | Void
  | Boolean
  | Byte
  | Char
  | Short
  | Int
  | Long
  | Float
  | Double
  | Object (signature : String)
deriving DecidableEq, BEq

/-- Method signature (JMethodSignature): return type and formal parameter
types. -/
structure JMethodSignature where
  return_type : JType
  arguments : List JType
deriving DecidableEq, BEq

/-- Model of JVariant: a tagged Java value. Floating point values are
modelled by their tag only; reference values carry the signature of their
runtime class. -/
inductive JVariant
  | vBoolean (b : Bool)
  | vByte (v : Int)
  | vChar (v : Nat)
  | vShort (v : Int)
  | vInt (v : Int)
  | vLong (v : Int)
  | vFloat
  | vDouble
  | vObject (cls : String)
  | vNull
deriving DecidableEq

/-- Modelled from the spec: the external Class Resolver (ClassIndexer and
class metadata reader, not part of the headers), reduced to the queries the
caller needs: the runtime class of an object, the ancestor chain of a class
(most derived first, starting with the class itself), and whether a class
itself declares a method of a given name and signature. -/
structure ClassIndexer where
  runtimeClassOf : Nat → String
  ancestry : String → List String
  declares : String → String → JMethodSignature → Bool

/-- Modelled from the spec: reference assignability per the normal rules of
the language, written over the ancestor chain: the dynamic class is
assignable to the formal class when the formal class appears in the ancestry
of the dynamic class. -/
def isAssignable (idx : ClassIndexer) (dynamic formal : String) : Bool :=
  (idx.ancestry dynamic).contains formal

/-- Modelled from the spec: body of SafeMethodCaller.CheckSignature (declared
at safe_method_caller.h lines 155 to 157, body not in the headers). The value
stored in the JVariant matches the signature when its dynamic type is
assignable to the formal type under the normal widening and
reference-assignability rules. -/
def CheckSignature (idx : ClassIndexer) (signature : JType)
    (value : JVariant) : Bool :=
  match signature, value with
  | .Object sig, .vObject dyn => isAssignable idx dyn sig
  | .Object _, .vNull => true
  | .Boolean, .vBoolean _ => true
  | .Byte, .vByte _ => true
  | .Char, .vChar _ => true
  | .Short, .vShort _ => true
  | .Short, .vByte _ => true
  | .Int, .vInt _ => true
  | .Int, .vShort _ => true
  | .Int, .vByte _ => true
  | .Int, .vChar _ => true
  | .Long, .vLong _ => true
  | .Long, .vInt _ => true
  | .Long, .vShort _ => true
  | .Long, .vByte _ => true
  | .Long, .vChar _ => true
  | .Float, .vFloat => true
  | .Float, .vLong _ => true
  | .Float, .vInt _ => true
  | .Float, .vShort _ => true
  | .Float, .vByte _ => true
  | .Float, .vChar _ => true
  | .Double, .vDouble => true
  | .Double, .vFloat => true
  | .Double, .vLong _ => true
  | .Double, .vInt _ => true
  | .Double, .vShort _ => true
  | .Double, .vByte _ => true
  | .Double, .vChar _ => true
  | _, _ => false

/-- Modelled from the spec: body of SafeMethodCaller.CheckArguments (declared
at safe_method_caller.h lines 150 to 152, body not in the headers). The
arguments match when their count equals the number of formal parameters and
each argument passes CheckSignature against its formal parameter type. -/
def CheckArguments (idx : ClassIndexer) (signature : JMethodSignature)
    (arguments : List JVariant) : Bool :=
  signature.arguments.length == arguments.length &&
  (signature.arguments.zip arguments).all
    (fun p => CheckSignature idx p.1 p.2)

/-- Model of ClassMetadataReader.Method: the declaring class signature, the
method name and the method signature. -/
structure MethodMetadata where
  class_signature : String
  name : String
  signature : JMethodSignature
deriving DecidableEq

/-- Safety classification of one method in the Policy Store: block the call,
allow it through JNI, or interpret it under supervision. -/
inductive CallAction
  | Block
  | Allow
  | Interpret
deriving DecidableEq

/-- Model of Config.Method: the policy record of one method. -/
structure MethodConfig where
  action : CallAction
deriving DecidableEq

/-- Model of the Policy Store lookup: implementing class signature, method
name and method signature to an optional policy record; a missing entry
defaults to not callable. -/
def Config : Type :=
  String → String → JMethodSignature → Option MethodConfig

/-- Classes that play a role when calling a method, from the CallTarget
struct at safe_method_caller.h lines 112 to 127: the signature of the class
implementing the method, the signature of the runtime class of the receiver,
and the policy record of the method (absent when the Policy Store has no
entry). The JNI class references of the C++ struct are represented by their
signatures. -/
structure CallTarget where
  method_cls_signature : String
  object_cls_signature : String
  method_config : Option MethodConfig
deriving DecidableEq

/-- Modelled from the spec: body of SafeMethodCaller.GetCallTarget (declared
at safe_method_caller.h lines 136 to 139, body not in the headers). With
nonvirtual dispatch the implementing class is the declaring class named in
the method metadata; with virtual dispatch it is the most derived class in
the ancestor chain of the runtime class of the receiver that declares the
method, and resolution fails with ClassResolutionFailure when no class in
the chain declares it. The policy of the implementing class and method is
looked up in the Policy Store. -/
def GetCallTarget (idx : ClassIndexer) (config : Config) (nonvirtual : Bool)
    (metadata : MethodMetadata) (source : Nat) :
    Except FormatMessageModel CallTarget :=
  let object_cls := idx.runtimeClassOf source
  if nonvirtual then
    .ok { method_cls_signature := metadata.class_signature
          object_cls_signature := object_cls
          method_config :=
            config metadata.class_signature metadata.name metadata.signature }
  else
    match (idx.ancestry object_cls).find?
        (fun c => idx.declares c metadata.name metadata.signature) with
    | none => .error ⟨.ClassResolutionFailure, [metadata.name]⟩
    | some c =>
      .ok { method_cls_signature := c
            object_cls_signature := object_cls
            method_config := config c metadata.name metadata.signature }

/-- Formats the method-not-safe-to-call error, from the declaration at
safe_method_caller.h lines 164 to 166: a MethodBlocked message carrying the
method name and the signature of the implementing class. -/
def MethodBlocked (metadata : MethodMetadata) (call_target : CallTarget) :
    FormatMessageModel :=
  ⟨.MethodBlocked, [metadata.name, call_target.method_cls_signature]⟩

/-- Outcome of the dispatch decision of one invocation: delegate to the
native bridge (InvokeJni), enter the supervised interpreter
(InvokeInterpreter), or surface an error without calling anything. -/
inductive InvokeDispatch
  | invokeJni (call_target : CallTarget)
  | invokeInterpreter (call_target : CallTarget)
  | invokeError (message : FormatMessageModel)
deriving DecidableEq

/-- Modelled from the spec: body of SafeMethodCaller.InvokeInternal (declared
at safe_method_caller.h lines 79 to 83, body not in the headers). Resolves
the call target; a missing policy record blocks the call; failing arguments
yield SignatureMismatch before any call attempt; the policy then routes the
call to the native bridge, blocks it, or sends it to the interpreter, the
latter only when the interpreter is not disabled and the class file loads
within the remaining quota. The returned state and cache reflect only the
quota already consumed. -/
def InvokeInternal (q : MethodCallQuota) (idx : ClassIndexer)
    (config : Config) (nonvirtual : Bool) (metadata : MethodMetadata)
    (source : Nat) (arguments : List JVariant) (s : SafeMethodCallerState)
    (cache : List String) :
    InvokeDispatch × SafeMethodCallerState × List String :=
  match GetCallTarget idx config nonvirtual metadata source with
  | .error m => (.invokeError m, s, cache)
  | .ok ct =>
    match ct.method_config with
    | none => (.invokeError (MethodBlocked metadata ct), s, cache)
    | some cfg =>
      if CheckArguments idx metadata.signature arguments then
        match cfg.action with
        | .Block => (.invokeError (MethodBlocked metadata ct), s, cache)
        | .Allow => (.invokeJni ct, s, cache)
        | .Interpret =>
          if IsNanoJavaInterpreterDisabled q then
            (.invokeError (MethodBlocked metadata ct), s, cache)
          else
            match CacheLoadClassFile q ct.method_cls_signature s cache with
            | .error m => (.invokeError m, s, cache)
            | .ok (s', cache') => (.invokeInterpreter ct, s', cache')
      else
        (.invokeError ⟨.SignatureMismatch, [metadata.name]⟩, s, cache)

/-- Characterisation of a successful find?: the element found satisfies the
predicate and every element before it in the list does not. -/
theorem find?_split {α : Type} (p : α → Bool) (l : List α) (a : α)
    (h : l.find? p = some a) :
    p a = true ∧
    ∃ pre post, l = pre ++ a :: post ∧ ∀ x ∈ pre, p x = false := by
  induction l with
  | nil => simp [List.find?] at h
  | cons x xs ih =>
    cases hpx : p x with
    | true =>
      rw [List.find?_cons_of_pos _ hpx] at h
      cases h
      exact ⟨hpx, [], xs, rfl, by simp⟩
    | false =>
      rw [List.find?_cons_of_neg _ (by simp [hpx])] at h
      obtain ⟨hpa, pre, post, heq, hall⟩ := ih h
      refine ⟨hpa, x :: pre, post, by rw [heq]; rfl, ?_⟩
      intro y hy
      rcases List.mem_cons.mp hy with rfl | hy2
      · exact hpx
      · exact hall y hy2

/-- Any dispatch outcome is a native call, an interpreter call, or an
error. -/
theorem invokeDispatch_cases (r : InvokeDispatch) :
    (∃ ct, r = .invokeJni ct) ∨ (∃ ct, r = .invokeInterpreter ct) ∨
    (∃ m, r = .invokeError m) := by
  cases r with
  | invokeJni ct => exact Or.inl ⟨ct, rfl⟩
  | invokeInterpreter ct => exact Or.inr (Or.inl ⟨ct, rfl⟩)
  | invokeError m => exact Or.inr (Or.inr ⟨m, rfl⟩)

/-- C4: with both quota ceilings zero the interpreter is effectively
disabled and, for every invocation through such an instance, the dispatch
outcome is either a native bridge call or an error; the interpreter path is
never entered. -/
theorem zero_quota_never_interprets (idx : ClassIndexer) (config : Config)
    (nonvirtual : Bool) (metadata : MethodMetadata) (source : Nat)
    (arguments : List JVariant) (s : SafeMethodCallerState)
    (cache : List String) :
    IsNanoJavaInterpreterDisabled ⟨0, 0⟩ = true ∧
    (∀ ct, (InvokeInternal ⟨0, 0⟩ idx config nonvirtual metadata source
        arguments s cache).1 ≠ .invokeInterpreter ct) ∧
    ((∃ ct, (InvokeInternal ⟨0, 0⟩ idx config nonvirtual metadata source
        arguments s cache).1 = .invokeJni ct) ∨
     (∃ m, (InvokeInternal ⟨0, 0⟩ idx config nonvirtual metadata source
        arguments s cache).1 = .invokeError m)) := by
  have hnever : ∀ ct, (InvokeInternal ⟨0, 0⟩ idx config nonvirtual metadata
      source arguments s cache).1 ≠ .invokeInterpreter ct := by
    intro ct hct
    unfold InvokeInternal at hct
    split at hct
    · simp at hct
    · split at hct
      · simp at hct
      · split at hct
        · split at hct
          · simp at hct
          · simp at hct
          · rw [if_pos (by rfl)] at hct
            simp at hct
        · simp at hct
  refine ⟨rfl, hnever, ?_⟩
  rcases invokeDispatch_cases (InvokeInternal ⟨0, 0⟩ idx config nonvirtual
      metadata source arguments s cache).1 with h | h | h
  · exact Or.inl h
  · exact absurd h.choose_spec (hnever h.choose)
  · exact Or.inr h

/-- C5: call target resolution with nonvirtual dispatch yields as
implementing class the declaring class named in the method metadata, while
virtual dispatch on the same metadata and receiver yields the most derived
class of the ancestor chain of the runtime class of the receiver that
declares the method: the class found declares it and no strictly more
derived class before it in the chain does. -/
theorem call_target_resolution (idx : ClassIndexer) (config : Config)
    (metadata : MethodMetadata) (source : Nat) :
    (∀ ct, GetCallTarget idx config true metadata source = .ok ct →
      ct.method_cls_signature = metadata.class_signature) ∧
    (∀ ct, GetCallTarget idx config false metadata source = .ok ct →
      ct.object_cls_signature = idx.runtimeClassOf source ∧
      idx.declares ct.method_cls_signature metadata.name metadata.signature
        = true ∧
      ∃ pre post,
        idx.ancestry (idx.runtimeClassOf source)
          = pre ++ ct.method_cls_signature :: post ∧
        ∀ c ∈ pre,
          idx.declares c metadata.name metadata.signature = false) := by
  constructor
  · intro ct h
    have h' : Except.ok
        { method_cls_signature := metadata.class_signature
          object_cls_signature := idx.runtimeClassOf source
          method_config := config metadata.class_signature metadata.name
            metadata.signature }
        = Except.ok ct := h
    injection h' with h2
    rw [← h2]
  · intro ct h
    simp only [GetCallTarget, Bool.false_eq_true, if_false] at h
    cases hf : (idx.ancestry (idx.runtimeClassOf source)).find?
        (fun c => idx.declares c metadata.name metadata.signature) with
    | none => rw [hf] at h; simp at h
    | some c =>
      rw [hf] at h
      simp only [Except.ok.injEq] at h
      obtain ⟨hp, pre, post, heq, hall⟩ := find?_split _ _ _ hf
      subst h
      exact ⟨rfl, hp, pre, post, heq, hall⟩

/-- A signature taking no arguments and returning int, for witness
checking. -/
def intSig : JMethodSignature :=
  { return_type := .Int, arguments := [] }

/-- A signature taking one int argument and returning int, for witness
checking. -/
def intArgSig : JMethodSignature :=
  { return_type := .Int, arguments := [.Int] }

/-- A small concrete class resolver for witness checking: every object has
runtime class LD; whose ancestor chain is LD; then LB; then LO;, and the
method named m with signature intSig is declared by LB; and by LO; but not
by LD;. -/
def exIdx : ClassIndexer :=
  { runtimeClassOf := fun _ => "LD;"
    ancestry := fun c =>
      if c == "LD;" then ["LD;", "LB;", "LO;"] else [c]
    declares := fun c name sig =>
      (c == "LB;" || c == "LO;") && name == "m" && sig == intSig }

/-- Metadata of the method m declared by LO; with no arguments. -/
def mdVirt : MethodMetadata :=
  { class_signature := "LO;", name := "m", signature := intSig }

/-- Metadata of a method m declared by LO; taking one int argument. -/
def mdArg : MethodMetadata :=
  { class_signature := "LO;", name := "m", signature := intArgSig }

/-- A Policy Store with no entries. -/
def cfgNone : Config := fun _ _ _ => none

/-- A Policy Store allowing every method through the native bridge. -/
def cfgAllow : Config := fun _ _ _ => some ⟨.Allow⟩

/-- C5 witness: on the concrete hierarchy, nonvirtual dispatch on m resolves
to the declaring class LO; while virtual dispatch on the same metadata and
receiver resolves to LB;, the most derived override: LB; declares m and the
more derived prefix of the ancestor chain does not. -/
theorem call_target_resolution_witness :
    (CallTarget.mk ("LO;") ("LD;") none).method_cls_signature
        = mdVirt.class_signature ∧
    (exIdx.declares ("LB;") mdVirt.name mdVirt.signature = true ∧
      ∃ pre post,
        exIdx.ancestry ("LD;") = pre ++ ("LB;") :: post ∧
        ∀ c ∈ pre, exIdx.declares c mdVirt.name mdVirt.signature = false) :=
  ⟨(call_target_resolution exIdx cfgNone mdVirt 0).1
      ⟨"LO;", "LD;", none⟩ rfl,
   ((call_target_resolution exIdx cfgNone mdVirt 0).2
      ⟨"LB;", "LD;", none⟩ rfl).2⟩

/-- C6 counterexample: an invocation whose arguments fail the arity check
but whose resolved call target has no policy entry is answered with
MethodBlocked, not SignatureMismatch, so the claim as stated does not hold
of every invocation with failing arguments. -/
theorem signature_mismatch_not_universal :
    CheckArguments exIdx mdArg.signature [] = false ∧
    (InvokeInternal ⟨10, 100⟩ exIdx cfgNone true mdArg 0 [] initialState
        []).1 = .invokeError ⟨.MethodBlocked, ["m", "LO;"]⟩ ∧
    (InvokeInternal ⟨10, 100⟩ exIdx cfgNone true mdArg 0 [] initialState
        []).1 ≠ .invokeError ⟨.SignatureMismatch, ["m"]⟩ := by
  refine ⟨by decide, by decide, by decide⟩

/-- C6 (amended): for every invocation whose call target resolves with a
policy entry present and whose arguments fail the arity or
type-assignability check against the formal parameter signature, the result
is a SignatureMismatch error produced before any call attempt, native or
interpreted, and the state of the orchestrator and the cache are returned
unchanged, so no observable side effect of the call occurs. -/
theorem signature_mismatch_before_call (q : MethodCallQuota)
    (idx : ClassIndexer) (config : Config) (nonvirtual : Bool)
    (metadata : MethodMetadata) (source : Nat) (arguments : List JVariant)
    (s : SafeMethodCallerState) (cache : List String) (ct : CallTarget)
    (cfg : MethodConfig)
    (h1 : GetCallTarget idx config nonvirtual metadata source = .ok ct)
    (h2 : ct.method_config = some cfg)
    (h3 : CheckArguments idx metadata.signature arguments = false) :
    InvokeInternal q idx config nonvirtual metadata source arguments s cache
      = (.invokeError ⟨.SignatureMismatch, [metadata.name]⟩, s, cache) := by
  simp [InvokeInternal, h1, h2, h3]

/-- C6 (amended) witness: with a Policy Store that allows m and an argument
list failing the arity check, the invocation is answered with
SignatureMismatch and the fresh state and empty cache come back
unchanged. -/
theorem signature_mismatch_before_call_witness :
    InvokeInternal ⟨10, 100⟩ exIdx cfgAllow true mdArg 0 [] initialState []
      = (.invokeError ⟨.SignatureMismatch, ["m"]⟩, initialState, []) :=
  signature_mismatch_before_call ⟨10, 100⟩ exIdx cfgAllow true mdArg 0 []
    initialState [] ⟨"LO;", "LD;", some ⟨.Allow⟩⟩ ⟨.Allow⟩ rfl rfl
    (by decide)

/-- C8: for every resolved call target whose implementing class and method
have no entry in the Policy Store, the invocation is blocked: the result is
a MethodBlocked error carrying the method name and the signature of the
implementing class, the state and the cache are unchanged, and neither the
native bridge nor the interpreter is invoked. -/
theorem missing_policy_blocks (q : MethodCallQuota) (idx : ClassIndexer)
    (config : Config) (nonvirtual : Bool) (metadata : MethodMetadata)
    (source : Nat) (arguments : List JVariant) (s : SafeMethodCallerState)
    (cache : List String) (ct : CallTarget)
    (h1 : GetCallTarget idx config nonvirtual metadata source = .ok ct)
    (h2 : ct.method_config = none) :
    InvokeInternal q idx config nonvirtual metadata source arguments s cache
      = (.invokeError ⟨.MethodBlocked,
          [metadata.name, ct.method_cls_signature]⟩, s, cache) := by
  simp [InvokeInternal, MethodBlocked, h1, h2]

/-- C8 witness: with an empty Policy Store and well-typed arguments, the
invocation of m is blocked with a MethodBlocked message naming the method m
and the implementing class LO;, and neither bridge nor interpreter runs. -/
theorem missing_policy_blocks_witness :
    InvokeInternal ⟨10, 100⟩ exIdx cfgNone true mdArg 0 [.vInt 3]
        initialState []
      = (.invokeError ⟨.MethodBlocked, ["m", "LO;"]⟩, initialState, []) :=
  missing_policy_blocks ⟨10, 100⟩ exIdx cfgNone true mdArg 0 [.vInt 3]
    initialState [] ⟨"LO;", "LD;", none⟩ rfl rfl

/-- Modelled from the spec: body of SafeMethodCaller.GetCurrentMethodName
(declared at safe_method_caller.h lines 61 to 65, body not in the headers).
Returns the method name of the innermost interpreter frame, or the empty
string when no method is being interpreted. -/
def GetCurrentMethodName (s : SafeMethodCallerState) : String :=
  match s.current_interpreter with
  | [] => ""
  | name :: _ => name

/-- Modelled from the spec: body of SafeMethodCaller.CurrentCallStack
(declared at safe_method_caller.h lines 141 to 142, body not in the
headers). Formats the call stack of the interpreted methods by walking the
parent references from the innermost interpreter and listing the method
names in call order, outermost call first. -/
def CurrentCallStack (s : SafeMethodCallerState) : List String :=
  s.current_interpreter.reverse

/-- A chain of nested interpreted invocations: each method of the list, in
call order outermost first, attaches a new interpreter frame referencing its
parent. -/
def runNested (s : SafeMethodCallerState) (names : List String) :
    SafeMethodCallerState :=
  names.foldl attachFrame s

/-- The frame chain after a run of nested invocations holds the entered
method names innermost first, on top of whatever chain was active before. -/
theorem runNested_chain (s : SafeMethodCallerState) (names : List String) :
    (runNested s names).current_interpreter
      = names.reverse ++ s.current_interpreter := by
  induction names generalizing s with
  | nil => simp [runNested]
  | cons n ns ih =>
    have hstep : runNested s (n :: ns) = runNested (attachFrame s n) ns :=
      rfl
    rw [hstep, ih]
    simp [attachFrame]

/-- C9: a chain of nested interpreted invocations that enters the methods of
the list names in call order, outermost call first, yields a call-stack
description built from the interpreter frame chain that lists exactly
names.length method names, which is N + 1 for an outer call with nesting
depth N, ordered outermost call first: the description is names itself. -/
theorem nested_call_stack (names : List String) :
    CurrentCallStack (runNested initialState names) = names ∧
    (CurrentCallStack (runNested initialState names)).length
      = names.length := by
  have hchain : CurrentCallStack (runNested initialState names) = names := by
    simp [CurrentCallStack, runNested_chain, initialState]
  exact ⟨hchain, by rw [hchain]⟩

/-- C10: when no interpreted method is currently executing, that is the
interpreter frame chain is empty, the current method name is the empty
string rather than a failure or a placeholder name. -/
theorem current_method_name_empty (s : SafeMethodCallerState)
    (h : s.current_interpreter = []) :
    GetCurrentMethodName s = "" := by
  simp [GetCurrentMethodName, h]

/-- C10 witness: the state of a freshly constructed caller has no
interpreter frame and its current method name is the empty string. -/
theorem current_method_name_empty_witness :
    GetCurrentMethodName initialState = "" :=
  current_method_name_empty initialState rfl

end SafeCaller
